import Mathlib

/-!
Verification development for the MMT engine-builder orchestration core
(`src/cli/engine.py`): a shallow embedding of the checkpoint manager, the
step runner, the pipeline controller (`_MMTEngineBuilder._build`), the
domain-map generation (`BaselineDatabase.generate`) and the pre-flight
resource check (`_MMTEngineBuilder._check_constraints`), with theorems
settling the behavioural claims about them.

Conventions of the embedding:
- Python exceptions become `Except` values (`BuildError` below).
- The filesystem effects of `_build` are recorded as an explicit trace of
  events (`TraceEv`); read-only operations leave no trace.
- Machine integers are `Nat`; Python 2 integer division `/` is `Nat` floor
  division.
- The external training collaborators (cleaner, aligner, ...) are out of
  scope per the step contract: a step body is abstracted to an oracle
  telling whether the invocation returns normally, since no claim depends
  on the corpus values they produce.  The step-runner `_run_step` itself is
  embedded value-faithfully (polymorphic in the values it threads).
-/

namespace MMT

/-- Errors raised by the engine builder.  Python exception classes are
mapped as follows:
- `illegalState`: `cli.IllegalStateException` raised by
  `_CheckpointManager.load_from_file` when the checkpoint file is missing
  (the spec taxonomy calls this `ResumeStateError`);
- `valueError`: the `ValueError` raised by `json.load` on unparsable input,
  which `load_from_file` does not catch;
- `invalidArgument`: `IllegalArgumentException('Unknown training steps: ...')`
  raised by `_MMTEngineBuilder.__init__`;
- `noTrainingData`: `IllegalArgumentException('you project does not include
  ...-... data.')` raised by `_MMTEngineBuilder._build` (the spec taxonomy
  calls this `NoTrainingDataError`);
- `stepException name`: any exception propagating out of the step function
  for step `name`;
- `configException`: any exception propagating out of
  `MMTEngine.write_configs`. -/
inductive BuildError where
  | illegalState
  | valueError
  | invalidArgument
  | noTrainingData
  | stepException (name : String)
  | configException
deriving DecidableEq, Repr

/-- A bilingual corpus, reduced to the single attribute the embedded code
reads (`corpus.name` in `BaselineDatabase.generate`). -/
structure Corpus where
  name : String
deriving DecidableEq, Repr

/-- One record of the domain map (`{"id": ..., "name": ...}` in
`baseline_domains.json`). -/
structure Domain where
  id : String
  name : String
deriving DecidableEq, Repr

namespace BaselineDatabase

/-- The domain-list computation of `BaselineDatabase.generate`
(src/cli/engine.py lines 29-49): the loop `for i in xrange(len(
bilingual_corpora))` builds one record per bilingual corpus with
`id = str(i + 1)` and `name = bilingual_corpora[i].name`, in input order.
The subsequent symlinking of corpora and the folder creation are
filesystem effects not needed by any claim about the map itself. -/
def generate (bilingual_corpora : List Corpus) : List Domain :=
  (List.range bilingual_corpora.length).map
    (fun i => { id := toString (i + 1),
                name := (bilingual_corpora.getD i { name := "" }).name })

end BaselineDatabase

/-- The combined state of a `_CheckpointManager` instance and the
checkpoint file it persists to: `passed_steps` is the in-memory list
`self._passed_steps`, `file` is the list currently stored in
`checkpoint.json` on disk. -/
structure CheckpointState where
  passed_steps : List String
  file : List String
deriving DecidableEq, Repr

namespace CheckpointManager

/-- `_CheckpointManager.save` (lines 525-527): overwrites the checkpoint
file with the current in-memory list (`json.dump(self._passed_steps, ...)`). -/
def save (st : CheckpointState) : CheckpointState :=
  { st with file := st.passed_steps }

/-- `_CheckpointManager.completed` (lines 532-534): appends the step name
to `self._passed_steps` (a plain Python list append, no deduplication) and
returns the manager for chaining. -/
def completed (st : CheckpointState) (step : String) : CheckpointState :=
  { st with passed_steps := st.passed_steps ++ [step] }

/-- `_CheckpointManager.to_be_run` (lines 540-541):
`step_name not in self._passed_steps`. -/
def to_be_run (st : CheckpointState) (step_name : String) : Bool :=
  !(st.passed_steps.contains step_name)

/-- The possible states of the checkpoint file as seen by
`load_from_file`: absent (so `open` raises `IOError`), present but not
valid JSON (so `json.load` raises `ValueError`), or present and parsed to
a list of step names. -/
inductive FileContent where
  | missing
  | unparsable
  | parsed (steps : List String)
deriving DecidableEq, Repr

/-- `_CheckpointManager.load_from_file` (lines 491-500).  The
`try/except IOError` catches exactly the missing-file case and re-raises
it as `cli.IllegalStateException`; a `ValueError` from `json.load` on an
unparsable file is NOT caught and propagates as-is.  On success the
manager's list is the parsed file contents. -/
def load_from_file : FileContent → Except BuildError CheckpointState
  | .missing => .error .illegalState
  | .unparsable => .error .valueError
  | .parsed steps => .ok { passed_steps := steps, file := steps }

/-- `_CheckpointManager.create_for_engine` (lines 505-509): a manager with
an empty passed-steps list, immediately saved. -/
def create_for_engine : CheckpointState :=
  save { passed_steps := [], file := [] }

end CheckpointManager

/-- `MMTEngine.training_steps` (lines 620-627): the known step universe,
with the human-readable descriptions. -/
def training_steps : List (String × String) :=
  [("tm_cleanup", "TMs clean-up"),
   ("preprocess", "Corpora pre-processing"),
   ("context_analyzer", "Context Analyzer training"),
   ("aligner", "Aligner training"),
   ("tm", "Translation Model training"),
   ("lm", "Language Model training")]

/-- The step-name universe: the keys of `MMTEngine.training_steps`
(Python membership `step not in self._engine.training_steps` tests dict
keys). -/
def training_step_names : List String :=
  training_steps.map Prod.fst

/-- The step normalization of `_MMTEngineBuilder.__init__`
(lines 205-221): `steps = None` selects every training step; otherwise the
requested list is validated against the known step names and
`IllegalArgumentException` is raised if any requested name is unknown.
`__init__` performs no filesystem operation (pure attribute assignment
only), so it is embedded as a pure function. -/
def builder_init_steps (steps : Option (List String)) :
    Except BuildError (List String) :=
  match steps with
  | none => .ok training_step_names
  | some s =>
    let unknown_steps := s.filter (fun step => !(training_step_names.contains step))
    if unknown_steps.length > 0 then .error .invalidArgument
    else .ok s

/-- `_MMTEngineBuilder.__MB` (line 194). -/
def __MB : Nat := 1024 * 1024

/-- `_MMTEngineBuilder.__GB` (line 195). -/
def __GB : Nat := 1024 * 1024 * 1024

/-- The recommended-RAM formula of `_MMTEngineBuilder._check_constraints`
(line 360): `self.__GB * corpus_size_on_disk / (350 * self.__MB)` with
Python 2 integer floor division ("1G RAM every 350M on disk"). -/
def recommended_mem (corpus_size_on_disk : Nat) : Nat :=
  __GB * corpus_size_on_disk / (350 * __MB)

/-- The recommended-disk formula of `_check_constraints` (line 361):
`10 * corpus_size_on_disk`. -/
def recommended_disk (corpus_size_on_disk : Nat) : Nat :=
  10 * corpus_size_on_disk

/-- `_MMTEngineBuilder._check_constraints` (lines 353-370): compares free
memory and free disk against the recommendations and returns the pair of
warning conditions (memory warning, disk warning).  The body only prints
warnings; it contains no raise statement, so the embedding is a total pure
function. -/
def _check_constraints (free_space_on_disk corpus_size_on_disk free_memory : Nat) :
    Bool × Bool :=
  (decide (free_memory < recommended_mem corpus_size_on_disk),
   decide (free_space_on_disk < recommended_disk corpus_size_on_disk))

/-- Filesystem / logging effects of one `_build` invocation, in order of
occurrence.  Read-only operations (corpus listing, `df`/`du`/`free`) leave
no event. -/
inductive TraceEv where
  /-- `engine.get_tempdir('training', ensure=(not resume))` (line 255):
  when `ensure` the training temp dir (under `runtime_path/tmp`) is wiped
  and recreated. -/
  | tempDirEnsure (wiped : Bool)
  /-- `_CheckpointManager.save`: `checkpoint.json` (under the temp dir) is
  overwritten. -/
  | checkpointWrite
  /-- `shutil.rmtree(self._engine.path, ignore_errors=True)` (line 272). -/
  | engineDirWipe
  /-- `os.makedirs(self._engine.path)` (line 273). -/
  | engineDirMake
  /-- `self._check_constraints()` ran (line 276), with the computed
  memory-warning and disk-warning conditions; it only prints. -/
  | checkConstraints (memWarning diskWarning : Bool)
  /-- `_builder_logger.__init__` opened `training.log` (line 281, under
  `runtime_path/logs`). -/
  | logOpen
  /-- The step function for `name` was invoked with the given `skip` flag
  (lines 398/402).  With `skip = false` the step body may write artifacts,
  including under the engine's permanent models path. -/
  | stepRun (name : String) (skip : Bool)
  /-- `self._engine.write_configs()` completed (line 324): writes
  `engine.xconf` and decoder configs under the engine's permanent path. -/
  | writeConfigs
  /-- `self._engine.clear_tempdir('training')` (line 331). -/
  | clearTempTraining
  /-- `logger.error()` (line 333). -/
  | logError
  /-- `logger.close()` in the `finally` block (line 336). -/
  | logClose
deriving DecidableEq, Repr

/-- Whether an effect mutates the filesystem under the engine's permanent
path (`self._engine.path` = `ENGINES_DIR/name`).  The temp dir, checkpoint
file and log file live under `runtime_path` instead.  A `stepRun` in
execute mode may write engine-permanent model files (e.g.
`analyzer.create_index`), so it is conservatively classified as an
engine-path mutation. -/
def underEnginePath : TraceEv → Bool
  | .engineDirWipe => true
  | .engineDirMake => true
  | .writeConfigs => true
  | .stepRun _ _ => true
  | _ => false

/-- `_MMTEngineBuilder._run_step` (lines 379-408), value-faithful and
polymorphic in the values it threads (Python is dynamically typed here:
in the passthrough case the `values` list itself is what the caller
receives).
- not forced and not in the operator's selection: return `values`
  unchanged, no checkpoint access, no logging, no step invocation;
- otherwise compute `skip = not to_be_run(step_name)` and invoke the step
  function with it (an exception propagates unchanged, and the checkpoint
  is not touched);
- on normal return with `skip = false`, run
  `self._checkpoint_manager.completed(step_name).save()` before returning,
  so the state handed to any later step has the step persisted. -/
def run_step {α : Type} (selected : List String) (cp : CheckpointState)
    (step_name : String) (step_function : α → Bool → Except BuildError α)
    (values : α) (forced : Bool) :
    Except BuildError (α × CheckpointState) × List TraceEv :=
  if !forced && !(selected.contains step_name) then
    (.ok (values, cp), [])
  else
    let skip : Bool := !(CheckpointManager.to_be_run cp step_name)
    match step_function values skip with
    | .error e => (.error e, [.stepRun step_name skip])
    | .ok result =>
      if skip then
        (.ok (result, cp), [.stepRun step_name skip])
      else
        (.ok (result, CheckpointManager.save (CheckpointManager.completed cp step_name)),
         [.stepRun step_name skip, .checkpointWrite])

/-- The seven `_run_step` calls of `_build`, in pipeline order with their
`forced` flags (lines 294-320): only `__db_map` is forced. -/
def pipelineCalls : List (String × Bool) :=
  [("tm_cleanup", false), ("__db_map", true), ("preprocess", false),
   ("context_analyzer", false), ("aligner", false), ("tm", false), ("lm", false)]

/-- The step phase of `_build`: the `_run_step` calls executed in order,
threading the checkpoint state; the first exception aborts the sequence.
The corpus values threaded between steps are abstracted away (`α = Unit`
in `run_step`); `stepOk name skip` tells whether the step body for `name`,
invoked with the given skip flag, returns normally. -/
def runPipeline (selected : List String) (stepOk : String → Bool → Bool) :
    List (String × Bool) → CheckpointState →
    Except BuildError CheckpointState × List TraceEv
  | [], cp => (.ok cp, [])
  | (name, forced) :: rest, cp =>
    match run_step selected cp name
        (fun _ skip => if stepOk name skip then .ok () else .error (.stepException name))
        () forced with
    | (.error e, tr) => (.error e, tr)
    | (.ok (_, cp2), tr) =>
      match runPipeline selected stepOk rest cp2 with
      | (r, tr2) => (r, tr ++ tr2)

/-- `_MMTEngineBuilder._init_checkpoint_manager` (lines 343-348): in
resume mode load the checkpoint file (failures propagate); otherwise
create a fresh empty record and persist it immediately. -/
def initCheckpointManager (resume : Bool) (fc : CheckpointManager.FileContent) :
    Except BuildError CheckpointState × List TraceEv :=
  if resume then
    match CheckpointManager.load_from_file fc with
    | .error e => (.error e, [])
    | .ok cp => (.ok cp, [])
  else
    (.ok CheckpointManager.create_for_engine, [.checkpointWrite])

/-- The environment of one `_build` invocation: the builder flags, what
the filesystem looks like, and the outcome oracles for the external step
collaborators. -/
structure BuildEnv where
  /-- The `resume` argument of `_build`. -/
  resume : Bool
  /-- `self._debug`. -/
  debug : Bool
  /-- `os.path.isdir(self._engine.path)` at line 271. -/
  enginePathExists : Bool
  /-- `len(bilingual_corpora)` resolved by `BilingualCorpus.splitlist`. -/
  numBilingual : Nat
  /-- State of `checkpoint.json` when `_build` starts. -/
  checkpointFile : CheckpointManager.FileContent
  /-- `self._steps`, as normalized by `__init__`. -/
  selected : List String
  /-- Whether the step body for a given name, invoked with a given skip
  flag, returns normally. -/
  stepOk : String → Bool → Bool
  /-- Whether `write_configs` returns normally. -/
  configOk : Bool
  /-- `fileutils.df(self._engine.path)[2]`. -/
  freeDisk : Nat
  /-- `fileutils.free()`. -/
  freeMem : Nat
  /-- Total `fileutils.du(root)` over `self._roots`. -/
  corpusSize : Nat

/-- The `try ... except ... finally` body of `_build` (lines 285-336) from
after the logger is created: run the seven steps, then `write_configs`
under `logger.step`, then (success only, non-debug only)
`clear_tempdir('training')`; on any exception `logger.error()` runs and
the exception is re-raised.  (`logger.close()` from the `finally` block is
appended by `_build` itself.) -/
def tryPhase (selected : List String) (stepOk : String → Bool → Bool)
    (configOk debug : Bool) (cp : CheckpointState) :
    Except BuildError Unit × List TraceEv :=
  match runPipeline selected stepOk pipelineCalls cp with
  | (.error e, tr) => (.error e, tr ++ [.logError])
  | (.ok _, tr) =>
    if configOk then
      if debug then (.ok (), tr ++ [.writeConfigs])
      else (.ok (), tr ++ [.writeConfigs, .clearTempTraining])
    else (.error .configException, tr ++ [.logError])

/-- `_MMTEngineBuilder._build` (lines 253-336), in source order:
1. `get_tempdir('training', ensure=(not resume))`;
2. `_init_checkpoint_manager(resume)` (failures propagate);
3. `BilingualCorpus.splitlist` (read-only) and the zero-bilingual check
   raising `IllegalArgumentException` (line 265-267);
4. engine-dir preparation: wipe and recreate `engine.path` when it does
   not exist or `resume` is false (lines 271-273);
5. `_check_constraints()` (warnings only);
6. logger creation (opens `training.log`);
7. the try/except/finally step phase, with `logger.close()` always last. -/
def _build (env : BuildEnv) : Except BuildError Unit × List TraceEv :=
  let tr0 : List TraceEv := [.tempDirEnsure (!env.resume)]
  match initCheckpointManager env.resume env.checkpointFile with
  | (.error e, tr1) => (.error e, tr0 ++ tr1)
  | (.ok cp, tr1) =>
    if env.numBilingual = 0 then
      (.error .noTrainingData, tr0 ++ tr1)
    else
      let tr2 : List TraceEv :=
        if !env.enginePathExists || !env.resume then [.engineDirWipe, .engineDirMake]
        else []
      let w := _check_constraints env.freeDisk env.corpusSize env.freeMem
      let tr3 : List TraceEv := [.checkConstraints w.1 w.2, .logOpen]
      match tryPhase env.selected env.stepOk env.configOk env.debug cp with
      | (res, trTry) => (res, tr0 ++ tr1 ++ tr2 ++ tr3 ++ trTry ++ [.logClose])

/-! ## Helper lemmas about the traces of the step phase -/

/-- Every event `_run_step` emits is a step invocation for its own step
name or a checkpoint write. -/
theorem run_step_trace_shape {α : Type} (selected : List String)
    (cp : CheckpointState) (step_name : String)
    (f : α → Bool → Except BuildError α) (values : α) (forced : Bool) :
    ∀ e ∈ (run_step selected cp step_name f values forced).2,
      (∃ s, e = TraceEv.stepRun step_name s) ∨ e = TraceEv.checkpointWrite := by
  intro e he
  simp only [run_step] at he
  split at he
  · simp at he
  · split at he
    · simp at he
      exact Or.inl ⟨_, he⟩
    · split at he
      · simp at he
        exact Or.inl ⟨_, he⟩
      · simp at he
        rcases he with he | he
        · exact Or.inl ⟨_, he⟩
        · exact Or.inr he

/-- Every event the step phase emits is a step invocation for one of the
listed step names or a checkpoint write. -/
theorem runPipeline_trace_shape (selected : List String)
    (stepOk : String → Bool → Bool) (calls : List (String × Bool)) :
    ∀ (cp : CheckpointState) (e : TraceEv),
      e ∈ (runPipeline selected stepOk calls cp).2 →
      (∃ n s, e = TraceEv.stepRun n s ∧ n ∈ calls.map Prod.fst) ∨
        e = TraceEv.checkpointWrite := by
  induction calls with
  | nil =>
    intro cp e he
    simp [runPipeline] at he
  | cons hd tl ih =>
    obtain ⟨name, forced⟩ := hd
    intro cp e he
    simp only [runPipeline] at he
    split at he
    · rename_i e1 tr heq
      rcases run_step_trace_shape selected cp name
          (fun _ skip => if stepOk name skip then Except.ok ()
            else Except.error (BuildError.stepException name)) () forced e
          (by rw [heq]; exact he) with ⟨s, rfl⟩ | rfl
      · exact Or.inl ⟨name, s, rfl, by simp⟩
      · exact Or.inr rfl
    · rename_i u cp2 tr heq
      have he2 : e ∈ tr ++ (runPipeline selected stepOk tl cp2).2 := he
      rw [List.mem_append] at he2
      rcases he2 with he2 | he2
      · rcases run_step_trace_shape selected cp name
            (fun _ skip => if stepOk name skip then Except.ok ()
              else Except.error (BuildError.stepException name)) () forced e
            (by rw [heq]; exact he2) with ⟨s, rfl⟩ | rfl
        · exact Or.inl ⟨name, s, rfl, by simp⟩
        · exact Or.inr rfl
      · rcases ih cp2 e he2 with ⟨n, s, rfl, hn⟩ | rfl
        · exact Or.inl ⟨n, s, rfl, by simp [hn]⟩
        · exact Or.inr rfl

/-- The step phase never emits workspace-teardown or logger events. -/
theorem runPipeline_no_misc (selected : List String)
    (stepOk : String → Bool → Bool) (calls : List (String × Bool))
    (cp : CheckpointState) :
    TraceEv.clearTempTraining ∉ (runPipeline selected stepOk calls cp).2 ∧
    TraceEv.logError ∉ (runPipeline selected stepOk calls cp).2 ∧
    TraceEv.logClose ∉ (runPipeline selected stepOk calls cp).2 := by
  refine ⟨fun h => ?_, fun h => ?_, fun h => ?_⟩ <;>
    rcases runPipeline_trace_shape selected stepOk calls cp _ h with
      ⟨n, s, heq, _⟩ | heq <;> simp at heq

/-- A step name absent from a call list is never invoked by the step
phase restricted to that list. -/
theorem runPipeline_count_other (selected : List String)
    (stepOk : String → Bool → Bool) (calls : List (String × Bool))
    (cp : CheckpointState) (name : String) (b : Bool)
    (hname : name ∉ calls.map Prod.fst) :
    (runPipeline selected stepOk calls cp).2.count (TraceEv.stepRun name b) = 0 := by
  rw [List.count_eq_zero]
  intro h
  rcases runPipeline_trace_shape selected stepOk calls cp _ h with
    ⟨n, s, heq, hn⟩ | heq
  · simp only [TraceEv.stepRun.injEq] at heq
    obtain ⟨rfl, rfl⟩ := heq
    exact hname hn
  · simp at heq

/-- Checkpoint-manager initialization writes at most the checkpoint file. -/
theorem initCheckpointManager_trace (resume : Bool)
    (fc : CheckpointManager.FileContent) :
    ∀ e ∈ (initCheckpointManager resume fc).2, e = TraceEv.checkpointWrite := by
  intro e he
  unfold initCheckpointManager at he
  cases resume
  · simp at he
    exact he
  · simp only [if_true] at he
    cases fc <;> simp [CheckpointManager.load_from_file] at he

/-- `_run_step` evaluation: not forced and not selected — passthrough. -/
theorem run_step_eq_passthrough {α : Type} (selected : List String)
    (cp : CheckpointState) (step_name : String)
    (f : α → Bool → Except BuildError α) (values : α)
    (hsel : selected.contains step_name = false) :
    run_step selected cp step_name f values false = (.ok (values, cp), []) := by
  unfold run_step
  rw [hsel]
  simp

/-- `_run_step` evaluation: invoked (forced or selected), pending in the
checkpoint, and the step body returns normally. -/
theorem run_step_eq_exec {α : Type} (selected : List String)
    (cp : CheckpointState) (step_name : String)
    (f : α → Bool → Except BuildError α) (values : α) (forced : Bool) (r : α)
    (hcond : (!forced && !(selected.contains step_name)) = false)
    (hpending : CheckpointManager.to_be_run cp step_name = true)
    (hf : f values false = .ok r) :
    run_step selected cp step_name f values forced =
      (.ok (r, CheckpointManager.save (CheckpointManager.completed cp step_name)),
       [TraceEv.stepRun step_name false, TraceEv.checkpointWrite]) := by
  unfold run_step
  rw [hcond, hpending]
  simp only [Bool.false_eq_true, if_false, Bool.not_true, hf]

/-- `_run_step` evaluation: invoked, pending, and the step body raises. -/
theorem run_step_eq_exec_fail {α : Type} (selected : List String)
    (cp : CheckpointState) (step_name : String)
    (f : α → Bool → Except BuildError α) (values : α) (forced : Bool)
    (e : BuildError)
    (hcond : (!forced && !(selected.contains step_name)) = false)
    (hpending : CheckpointManager.to_be_run cp step_name = true)
    (hf : f values false = .error e) :
    run_step selected cp step_name f values forced =
      (.error e, [TraceEv.stepRun step_name false]) := by
  unfold run_step
  rw [hcond, hpending]
  simp only [Bool.false_eq_true, if_false, Bool.not_true, hf]

/-- Unfolding equation of `runPipeline` on a non-empty call list. -/
theorem runPipeline_cons (selected : List String) (stepOk : String → Bool → Bool)
    (name : String) (forced : Bool) (rest : List (String × Bool))
    (cp : CheckpointState) :
    runPipeline selected stepOk ((name, forced) :: rest) cp =
      (match run_step selected cp name
          (fun _ skip => if stepOk name skip then Except.ok ()
            else Except.error (BuildError.stepException name)) () forced with
      | (.error e, tr) => (.error e, tr)
      | (.ok (_, cp2), tr) =>
        match runPipeline selected stepOk rest cp2 with
        | (r, tr2) => (r, tr ++ tr2)) := rfl

/-- Trace of the step phase when the first step returns normally. -/
theorem runPipeline_trace_cons_ok (selected : List String)
    (stepOk : String → Bool → Bool) (name : String) (forced : Bool)
    (rest : List (String × Bool)) (cp cp2 : CheckpointState) (tr : List TraceEv)
    (h : run_step selected cp name
        (fun _ skip => if stepOk name skip then Except.ok ()
          else Except.error (BuildError.stepException name)) () forced =
      (.ok ((), cp2), tr)) :
    (runPipeline selected stepOk ((name, forced) :: rest) cp).2 =
      tr ++ (runPipeline selected stepOk rest cp2).2 := by
  rw [runPipeline_cons, h]

/-- Trace of the step phase when the first step raises. -/
theorem runPipeline_trace_cons_err (selected : List String)
    (stepOk : String → Bool → Bool) (name : String) (forced : Bool)
    (rest : List (String × Bool)) (cp : CheckpointState) (e : BuildError)
    (tr : List TraceEv)
    (h : run_step selected cp name
        (fun _ skip => if stepOk name skip then Except.ok ()
          else Except.error (BuildError.stepException name)) () forced =
      (.error e, tr)) :
    (runPipeline selected stepOk ((name, forced) :: rest) cp).2 = tr := by
  rw [runPipeline_cons, h]

/-- From a fresh (empty) checkpoint record, provided only that the
tm-cleanup body does not raise when invoked, the full pipeline invokes the
forced domain-mapping step exactly once, in execute mode, whatever step
set the operator selected and whatever the other step bodies do. -/
theorem runPipeline_db_map_count (selected : List String)
    (stepOk : String → Bool → Bool) (b : Bool)
    (hclean : stepOk "tm_cleanup" false = true) :
    (runPipeline selected stepOk pipelineCalls
      { passed_steps := [], file := [] }).2.count (TraceEv.stepRun "__db_map" b) =
      if b then 0 else 1 := by
  have hrest : ∀ cp : CheckpointState,
      (runPipeline selected stepOk
        [("preprocess", false), ("context_analyzer", false), ("aligner", false),
         ("tm", false), ("lm", false)] cp).2.count (TraceEv.stepRun "__db_map" b) = 0 :=
    fun cp => runPipeline_count_other selected stepOk _ cp "__db_map" b (by decide)
  simp only [pipelineCalls]
  by_cases hc : selected.contains "tm_cleanup" = true
  · rw [runPipeline_trace_cons_ok selected stepOk "tm_cleanup" false _
        { passed_steps := [], file := [] }
        (CheckpointManager.save (CheckpointManager.completed
          { passed_steps := [], file := [] } "tm_cleanup")) _
        (run_step_eq_exec selected { passed_steps := [], file := [] } "tm_cleanup" _
          () false () (by rw [hc]; rfl) rfl (by simp [hclean]))]
    by_cases hdb : stepOk "__db_map" false = true
    · rw [runPipeline_trace_cons_ok selected stepOk "__db_map" true _
          (CheckpointManager.save (CheckpointManager.completed
            { passed_steps := [], file := [] } "tm_cleanup")) _ _
          (run_step_eq_exec selected
            (CheckpointManager.save (CheckpointManager.completed
              { passed_steps := [], file := [] } "tm_cleanup")) "__db_map" _
            () true () rfl (by decide) (by simp [hdb]))]
      simp only [List.count_append, hrest]
      cases b <;> simp [List.count_cons]
    · have hdbf : stepOk "__db_map" false = false := by
        cases h : stepOk "__db_map" false
        · rfl
        · exact absurd h hdb
      rw [runPipeline_trace_cons_err selected stepOk "__db_map" true _
          (CheckpointManager.save (CheckpointManager.completed
            { passed_steps := [], file := [] } "tm_cleanup"))
          (BuildError.stepException "__db_map") _
          (run_step_eq_exec_fail selected
            (CheckpointManager.save (CheckpointManager.completed
              { passed_steps := [], file := [] } "tm_cleanup")) "__db_map" _
            () true (BuildError.stepException "__db_map") rfl (by decide)
            (by simp [hdbf]))]
      simp only [List.count_append]
      cases b <;> simp [List.count_cons]
  · have hcf : selected.contains "tm_cleanup" = false := by
      cases h : selected.contains "tm_cleanup"
      · rfl
      · exact absurd h hc
    rw [runPipeline_trace_cons_ok selected stepOk "tm_cleanup" false _
        { passed_steps := [], file := [] } { passed_steps := [], file := [] } _
        (run_step_eq_passthrough selected { passed_steps := [], file := [] }
          "tm_cleanup" _ () hcf)]
    by_cases hdb : stepOk "__db_map" false = true
    · rw [runPipeline_trace_cons_ok selected stepOk "__db_map" true _
          { passed_steps := [], file := [] } _ _
          (run_step_eq_exec selected { passed_steps := [], file := [] } "__db_map" _
            () true () rfl rfl (by simp [hdb]))]
      simp only [List.count_append, hrest]
      cases b <;> simp [List.count_cons]
    · have hdbf : stepOk "__db_map" false = false := by
        cases h : stepOk "__db_map" false
        · rfl
        · exact absurd h hdb
      rw [runPipeline_trace_cons_err selected stepOk "__db_map" true _
          { passed_steps := [], file := [] } (BuildError.stepException "__db_map") _
          (run_step_eq_exec_fail selected { passed_steps := [], file := [] }
            "__db_map" _ () true (BuildError.stepException "__db_map") rfl rfl
            (by simp [hdbf]))]
      simp only [List.count_append]
      cases b <;> simp [List.count_cons]

/-- The non-step events of the `_build` trace contain no domain-mapping
step invocation. -/
theorem count_db_map_misc_zero (b : Bool) (w1 w2 : Bool) (wiped : Bool) :
    List.count (TraceEv.stepRun "__db_map" b) [TraceEv.tempDirEnsure wiped] = 0 ∧
    List.count (TraceEv.stepRun "__db_map" b) [TraceEv.checkpointWrite] = 0 ∧
    List.count (TraceEv.stepRun "__db_map" b)
      [TraceEv.checkConstraints w1 w2, TraceEv.logOpen] = 0 ∧
    List.count (TraceEv.stepRun "__db_map" b) [TraceEv.logClose] = 0 ∧
    List.count (TraceEv.stepRun "__db_map" b) [TraceEv.logError] = 0 ∧
    List.count (TraceEv.stepRun "__db_map" b)
      [TraceEv.writeConfigs, TraceEv.clearTempTraining] = 0 ∧
    List.count (TraceEv.stepRun "__db_map" b) [TraceEv.writeConfigs] = 0 := by
  refine ⟨?_, ?_, ?_, ?_, ?_, ?_, ?_⟩ <;> (rw [List.count_eq_zero]; simp)

/-- The try-phase trace invokes the domain-mapping step exactly once, in
execute mode, when started from a fresh checkpoint record. -/
theorem tryPhase_db_map_count (selected : List String)
    (stepOk : String → Bool → Bool) (configOk debug : Bool) (b : Bool)
    (hclean : stepOk "tm_cleanup" false = true) :
    (tryPhase selected stepOk configOk debug
      { passed_steps := [], file := [] }).2.count (TraceEv.stepRun "__db_map" b) =
      if b then 0 else 1 := by
  have hp := runPipeline_db_map_count selected stepOk b hclean
  have hmisc := count_db_map_misc_zero b false false false
  rcases hq : runPipeline selected stepOk pipelineCalls
      { passed_steps := [], file := [] } with ⟨pres, ptr⟩
  rw [hq] at hp
  rcases pres with e | cp2
  · simp only [tryPhase, hq]
    rw [List.count_append, hp, hmisc.2.2.2.2.1, Nat.add_zero]
  · cases configOk
    · simp only [tryPhase, hq, Bool.false_eq_true, if_false]
      rw [List.count_append, hp, hmisc.2.2.2.2.1, Nat.add_zero]
    · cases debug
      · simp only [tryPhase, hq, if_true, Bool.false_eq_true, if_false]
        rw [List.count_append, hp, hmisc.2.2.2.2.2.1, Nat.add_zero]
      · simp only [tryPhase, hq, if_true]
        rw [List.count_append, hp, hmisc.2.2.2.2.2.2, Nat.add_zero]

/-- In a fresh (non-resume) `_build` whose corpus resolution is non-empty
and whose tm-cleanup body does not raise, the domain-mapping step is
invoked exactly once, in execute mode, for any selection and outcome of
the other steps. -/
theorem build_fresh_db_map_count (env : BuildEnv)
    (hresume : env.resume = false) (hbil : env.numBilingual ≠ 0)
    (hclean : env.stepOk "tm_cleanup" false = true) :
    ∀ b : Bool, (_build env).2.count (TraceEv.stepRun "__db_map" b) =
      if b then 0 else 1 := by
  have hinit : initCheckpointManager env.resume env.checkpointFile =
      (.ok { passed_steps := [], file := [] }, [TraceEv.checkpointWrite]) := by
    rw [hresume]
    rfl
  intro b
  have hts := tryPhase_db_map_count env.selected env.stepOk env.configOk env.debug b
    hclean
  have hmisc := count_db_map_misc_zero b
      (_check_constraints env.freeDisk env.corpusSize env.freeMem).1
      (_check_constraints env.freeDisk env.corpusSize env.freeMem).2 (!env.resume)
  have hengine : List.count (TraceEv.stepRun "__db_map" b)
      (if !env.enginePathExists || !env.resume then
        [TraceEv.engineDirWipe, TraceEv.engineDirMake] else ([] : List TraceEv)) = 0 := by
    split <;> (rw [List.count_eq_zero]; simp)
  rcases htry : tryPhase env.selected env.stepOk env.configOk env.debug
      { passed_steps := [], file := [] } with ⟨res, trTry⟩
  rw [htry] at hts
  simp only [_build, hinit, htry]
  rw [if_neg hbil]
  simp only [List.count_append]
  rw [hmisc.1, hmisc.2.1, hengine, hmisc.2.2.1, hts, hmisc.2.2.2.1]
  cases b <;> simp

/-- The try phase deletes the temporary workspace exactly on success with
debug off, and logs the error exactly on failure. -/
theorem tryPhase_spec (selected : List String) (stepOk : String → Bool → Bool)
    (configOk debug : Bool) (cp : CheckpointState) :
    ((TraceEv.clearTempTraining ∈ (tryPhase selected stepOk configOk debug cp).2) ↔
      ((tryPhase selected stepOk configOk debug cp).1.isOk = true ∧ debug = false)) ∧
    ((tryPhase selected stepOk configOk debug cp).1.isOk = false →
      TraceEv.logError ∈ (tryPhase selected stepOk configOk debug cp).2) := by
  have hnc := (runPipeline_no_misc selected stepOk pipelineCalls cp).1
  rcases hp : runPipeline selected stepOk pipelineCalls cp with ⟨pres, ptr⟩
  have hnc2 : TraceEv.clearTempTraining ∉ ptr := by
    rw [hp] at hnc
    exact hnc
  rcases pres with e | cp2
  · simp [tryPhase, hp, hnc2, Except.isOk, Except.toBool]
  · cases configOk
    · simp [tryPhase, hp, hnc2, Except.isOk, Except.toBool]
    · cases debug <;> simp [tryPhase, hp, hnc2, Except.isOk, Except.toBool]

/-! ## Theorems for the claims -/

/-- C1 counterexample: loading an unparsable checkpoint file does NOT fail
with the resume-state error (`cli.IllegalStateException`): the
`except IOError` clause of `load_from_file` does not catch the
`ValueError` raised by `json.load`, so a different error propagates.  This
refutes the claim that both the missing-file and the unparsable-file cases
fail with `ResumeStateError`. -/
theorem load_from_file_unparsable_not_resume_error :
    CheckpointManager.load_from_file .unparsable ≠
      Except.error BuildError.illegalState := by
  simp [CheckpointManager.load_from_file]

/-- C1 (amended): loading the checkpoint store in resume mode fails with
`ResumeStateError` (`IllegalStateException`) when the file is missing; when
the file is unparsable it fails with the uncaught parse error
(`ValueError`) instead; in neither case does it fall back to a fresh
(empty) record, and a parsable file is loaded as-is. -/
theorem load_from_file_failure_modes :
    CheckpointManager.load_from_file .missing = .error .illegalState ∧
    CheckpointManager.load_from_file .unparsable = .error .valueError ∧
    CheckpointManager.load_from_file (.parsed ["tm_cleanup"]) =
      .ok { passed_steps := ["tm_cleanup"], file := ["tm_cleanup"] } :=
  ⟨rfl, rfl, rfl⟩

/-- C2: a step that is not forced and whose name is not in the operator's
selected step set is a no-op passthrough: `_run_step` returns the inputs
unchanged with the checkpoint state untouched, it invokes nothing and
reports no progress, so the downstream step receives exactly the value(s)
the skipped step was given. -/
theorem run_step_passthrough {α : Type} (selected : List String)
    (cp : CheckpointState) (step_name : String)
    (step_function : α → Bool → Except BuildError α) (values : α)
    (forced : Bool) (hforced : forced = false)
    (hsel : selected.contains step_name = false) :
    run_step selected cp step_name step_function values forced =
      (.ok (values, cp), []) := by
  unfold run_step
  rw [hforced, hsel]
  simp

/-- C2 witness. -/
theorem run_step_passthrough_witness :
    run_step ["tm"] { passed_steps := [], file := [] } "aligner"
        (fun (v : Nat) _ => .ok (v + 1)) 7 false =
      (.ok (7, { passed_steps := [], file := [] }), []) :=
  run_step_passthrough ["tm"] { passed_steps := [], file := [] } "aligner"
    (fun v _ => .ok (v + 1)) 7 false rfl rfl

/-- C3: a step that is actually executed (not a passthrough: forced or
selected; not in skip mode: still pending in the checkpoint) and whose
step function returns without an exception has its name appended to the
checkpoint record AND the record persisted to the checkpoint file
(`completed(step_name).save()`) in the state `_run_step` returns — the
state every later step receives. -/
theorem run_step_executed_persists {α : Type} (selected : List String)
    (cp : CheckpointState) (step_name : String)
    (step_function : α → Bool → Except BuildError α) (values : α)
    (forced : Bool) (r : α)
    (hsel : forced = true ∨ selected.contains step_name = true)
    (hpending : CheckpointManager.to_be_run cp step_name = true)
    (hf : step_function values false = .ok r) :
    (run_step selected cp step_name step_function values forced).1 =
      .ok (r, { passed_steps := cp.passed_steps ++ [step_name],
                file := cp.passed_steps ++ [step_name] }) ∧
    (cp.passed_steps ++ [step_name]).contains step_name = true := by
  have hcond : (!forced && !(selected.contains step_name)) = false := by
    rcases hsel with h | h
    · rw [h]; rfl
    · rw [h]; simp
  refine ⟨?_, by simp⟩
  unfold run_step
  rw [hcond, hpending]
  simp only [Bool.false_eq_true, if_false, Bool.not_true, hf]
  rfl

/-- C3 witness. -/
theorem run_step_executed_persists_witness :
    (run_step ["tm"] { passed_steps := [], file := [] } "tm"
        (fun (v : Nat) _ => .ok v) 7 false).1 =
      .ok (7, { passed_steps := ["tm"], file := ["tm"] }) ∧
    (["tm"] : List String).contains "tm" = true :=
  run_step_executed_persists ["tm"] { passed_steps := [], file := [] } "tm"
    (fun v _ => .ok v) 7 false 7 (Or.inr rfl) rfl rfl

/-- C5: if the requested step set `S` is not a subset of the known step
universe (`MMTEngine.training_steps`), builder construction fails with
`InvalidArgument` (`IllegalArgumentException('Unknown training steps...')`).
`__init__` performs no filesystem operation at all (it is embedded as the
pure function `builder_init_steps`), so the failure occurs before any disk
access or workspace mutation. -/
theorem builder_init_rejects_unknown_steps (S : List String)
    (h : S.all (fun s => training_step_names.contains s) = false) :
    builder_init_steps (some S) = .error .invalidArgument := by
  rw [List.all_eq_false] at h
  obtain ⟨x, hxS, hx⟩ := h
  have hmem : x ∈ S.filter (fun step => !(training_step_names.contains step)) := by
    simp only [List.mem_filter]
    exact ⟨hxS, by simpa using hx⟩
  have hlen : 0 < (S.filter (fun step => !(training_step_names.contains step))).length :=
    List.length_pos.mpr (List.ne_nil_of_mem hmem)
  have hdef : builder_init_steps (some S) =
      if (S.filter (fun step => !(training_step_names.contains step))).length > 0
      then .error .invalidArgument else .ok S := rfl
  rw [hdef, if_pos hlen]

/-- C5 witness. -/
theorem builder_init_rejects_unknown_steps_witness :
    builder_init_steps (some ["tm", "bogus_step"]) = .error .invalidArgument :=
  builder_init_rejects_unknown_steps ["tm", "bogus_step"] (by decide)

/-- C7: `BaselineDatabase.generate` assigns dense integer identifiers in
input order — the i-th bilingual corpus (0-based) receives id
`str(i + 1)` paired with its name — and, being a pure function of the
ordered input, generating the map twice on the same ordered input yields
identical `{id, name}` pairs both times. -/
theorem generate_dense_ids_in_order (bcs : List Corpus) (i : Nat)
    (h : i < bcs.length) :
    (BaselineDatabase.generate bcs).length = bcs.length ∧
    (BaselineDatabase.generate bcs).getD i { id := "", name := "" } =
      { id := toString (i + 1), name := (bcs.getD i { name := "" }).name } ∧
    BaselineDatabase.generate bcs = BaselineDatabase.generate bcs := by
  refine ⟨by simp [BaselineDatabase.generate], ?_, rfl⟩
  simp [BaselineDatabase.generate, List.getElem?_range h]

/-- C7 witness. -/
theorem generate_dense_ids_in_order_witness :
    (BaselineDatabase.generate [⟨"europarl"⟩, ⟨"jrc"⟩]).length = 2 ∧
    (BaselineDatabase.generate [⟨"europarl"⟩, ⟨"jrc"⟩]).getD 1 { id := "", name := "" } =
      { id := toString (1 + 1), name := "jrc" } ∧
    BaselineDatabase.generate [⟨"europarl"⟩, ⟨"jrc"⟩] =
      BaselineDatabase.generate [⟨"europarl"⟩, ⟨"jrc"⟩] :=
  generate_dense_ids_in_order [⟨"europarl"⟩, ⟨"jrc"⟩] 1 (by decide)

/-- C9 counterexample: the pre-flight check does NOT compute recommended
free RAM as corpus size divided by 350.  At a corpus of 350 MB the code
(`__GB * corpus_size_on_disk / (350 * __MB)`, "1G RAM every 350M on disk")
recommends 1 GB, not the 1 MB the claimed formula gives. -/
theorem recommended_mem_not_size_div_350 :
    recommended_mem (350 * __MB) ≠ 350 * __MB / 350 := by
  decide

/-- C9 (amended): the pre-flight check computes recommended free RAM as
`⌊__GB * size / (350 * __MB)⌋ = ⌊1024 * size / 350⌋` — one GB of RAM per
350 MB of corpus, not size/350 — and recommended free disk as 10 times the
total input-corpus size; falling short only yields warnings: the check has
no failure outcome and the result of `_build` is independent of the
available memory and disk. -/
theorem check_constraints_formulas_and_advisory (c : Nat) :
    recommended_mem c = 1024 * c / 350 ∧
    recommended_disk c = 10 * c ∧
    ∀ (env : BuildEnv) (d₁ m₁ d₂ m₂ : Nat),
      (_build { env with freeDisk := d₁, freeMem := m₁ }).1 =
        (_build { env with freeDisk := d₂, freeMem := m₂ }).1 := by
  refine ⟨?_, rfl, ?_⟩
  · show 1024 * 1024 * 1024 * c / (350 * (1024 * 1024)) = 1024 * c / 350
    have h1 : 1024 * 1024 * 1024 * c = 1024 * 1024 * (1024 * c) := by ring
    have h2 : 350 * (1024 * 1024) = 1024 * 1024 * 350 := by ring
    rw [h1, h2, Nat.mul_div_mul_left _ _ (by norm_num)]
  · intro env d₁ m₁ d₂ m₂
    simp only [_build]
    rcases hinit : initCheckpointManager env.resume env.checkpointFile with ⟨r, t⟩
    rcases r with e | cp
    · rfl
    · by_cases hb : env.numBilingual = 0
      · simp [hb]
      · simp only [hb, if_false]

/-- C4: a training attempt whose corpus resolution yields zero bilingual
corpora (and whose checkpoint-manager initialization, which precedes
corpus resolution, succeeds) fails with `NoTrainingDataError`
(`IllegalArgumentException('you project does not include ...')`), and the
trace of `_build` contains no filesystem mutation under the engine's
permanent path: the raise at line 266 precedes the wipe/recreate of the
engine directory at lines 272-273, so only the runtime temp dir and the
checkpoint file have been touched. -/
theorem build_no_data_fails_before_engine_mutation (env : BuildEnv)
    (cp : CheckpointState) (h0 : env.numBilingual = 0)
    (hcp : (initCheckpointManager env.resume env.checkpointFile).1 = .ok cp) :
    (_build env).1 = .error .noTrainingData ∧
    (_build env).2.all (fun e => !underEnginePath e) = true := by
  rcases hinit : initCheckpointManager env.resume env.checkpointFile with ⟨r, t⟩
  have hr : r = Except.ok cp := by rw [hinit] at hcp; exact hcp
  subst hr
  constructor
  · simp [_build, hinit, h0]
  · simp only [_build, hinit, h0, if_true]
    rw [List.all_eq_true]
    intro e he
    have he2 : e ∈ [TraceEv.tempDirEnsure (!env.resume)] ++ t := he
    rw [List.mem_append] at he2
    rcases he2 with he2 | he2
    · simp at he2
      subst he2
      rfl
    · rw [initCheckpointManager_trace env.resume env.checkpointFile e
        (by rw [hinit]; exact he2)]
      rfl

/-- C4 witness. -/
theorem build_no_data_fails_before_engine_mutation_witness :
    0 = 0 ∧
    ((_build { resume := false
               debug := false
               enginePathExists := true
               numBilingual := 0
               checkpointFile := .parsed []
               selected := []
               stepOk := fun _ _ => true
               configOk := true
               freeDisk := 0
               freeMem := 0
               corpusSize := 0 }).1 = .error .noTrainingData ∧
     (_build { resume := false
               debug := false
               enginePathExists := true
               numBilingual := 0
               checkpointFile := .parsed []
               selected := []
               stepOk := fun _ _ => true
               configOk := true
               freeDisk := 0
               freeMem := 0
               corpusSize := 0 }).2.all (fun e => !underEnginePath e) = true) :=
  ⟨rfl, build_no_data_fails_before_engine_mutation _
    { passed_steps := [], file := [] } rfl rfl⟩

/-- C6: in every fresh (non-resume) training attempt that has training
data to process and whose tm-cleanup body does not raise, the
domain-mapping step `__db_map` is executed exactly once — in execute mode
(`skip = false`), never in skip mode — including when the operator's
requested step set excludes it: the `forced=True` flag bypasses the
step-selection check, and the fresh checkpoint record is empty so the step
is pending. -/
theorem build_fresh_runs_db_map_once (env : BuildEnv)
    (hresume : env.resume = false) (hbil : env.numBilingual ≠ 0)
    (hclean : env.stepOk "tm_cleanup" false = true) :
    (_build env).2.count (TraceEv.stepRun "__db_map" false) = 1 ∧
    (_build env).2.count (TraceEv.stepRun "__db_map" true) = 0 := by
  have key := build_fresh_db_map_count env hresume hbil hclean
  exact ⟨by simpa using key false, by simpa using key true⟩

/-- C6 witness: a fresh build whose selected step set is empty (so the
operator excluded `__db_map`) still executes the domain mapping once. -/
theorem build_fresh_runs_db_map_once_witness :
    (_build { resume := false
              debug := false
              enginePathExists := false
              numBilingual := 1
              checkpointFile := .parsed []
              selected := []
              stepOk := fun _ _ => true
              configOk := true
              freeDisk := 0
              freeMem := 0
              corpusSize := 0 }).2.count (TraceEv.stepRun "__db_map" false) = 1 ∧
    (_build { resume := false
              debug := false
              enginePathExists := false
              numBilingual := 1
              checkpointFile := .parsed []
              selected := []
              stepOk := fun _ _ => true
              configOk := true
              freeDisk := 0
              freeMem := 0
              corpusSize := 0 }).2.count (TraceEv.stepRun "__db_map" true) = 0 :=
  build_fresh_runs_db_map_once _ rfl (by decide) rfl

/-- C8: for a build that reaches the step phase, the temporary training
workspace is deleted exactly when the run succeeds with debug off (success
with debug on and any failure leave it on disk), any failure is logged
with `logger.error`, and `logger.close()` is the very last event — so a
failure is re-raised to the caller only after the log stream is closed. -/
theorem build_tempdir_and_log_policy (env : BuildEnv) (cp : CheckpointState)
    (hbil : env.numBilingual ≠ 0)
    (hcp : (initCheckpointManager env.resume env.checkpointFile).1 = .ok cp) :
    ((TraceEv.clearTempTraining ∈ (_build env).2) ↔
      ((_build env).1.isOk = true ∧ env.debug = false)) ∧
    ((_build env).1.isOk = false → TraceEv.logError ∈ (_build env).2) ∧
    (_build env).2.getLast? = some TraceEv.logClose := by
  rcases hinit : initCheckpointManager env.resume env.checkpointFile with ⟨r, t⟩
  have hr : r = Except.ok cp := by
    rw [hinit] at hcp
    exact hcp
  subst hr
  have htr := initCheckpointManager_trace env.resume env.checkpointFile
  rw [hinit] at htr
  have hclear_t : TraceEv.clearTempTraining ∉ t := by
    intro h
    exact absurd (htr _ h) (by simp)
  have hts := tryPhase_spec env.selected env.stepOk env.configOk env.debug cp
  rcases htry : tryPhase env.selected env.stepOk env.configOk env.debug cp
    with ⟨res, trTry⟩
  rw [htry] at hts
  have hite : TraceEv.clearTempTraining ∉
      (if !env.enginePathExists || !env.resume then
        [TraceEv.engineDirWipe, TraceEv.engineDirMake] else ([] : List TraceEv)) := by
    split <;> simp
  refine ⟨?_, ?_, ?_⟩
  · simp only [_build, hinit, htry]
    rw [if_neg hbil]
    simp [List.mem_append, hclear_t, hite, hts.1]
  · intro hfail
    have hfail2 : res.isOk = false := by
      simp only [_build, hinit, htry] at hfail
      rw [if_neg hbil] at hfail
      exact hfail
    simp only [_build, hinit, htry]
    rw [if_neg hbil]
    simp [List.mem_append, hts.2 hfail2]
  · simp only [_build, hinit, htry]
    rw [if_neg hbil]
    simp [List.getLast?_append, List.getLast?_cons, Option.or_some]

/-- C8 witness: a fresh successful build with debug off. -/
theorem build_tempdir_and_log_policy_witness :
    ((TraceEv.clearTempTraining ∈ (_build { resume := false
                                            debug := false
                                            enginePathExists := false
                                            numBilingual := 1
                                            checkpointFile := .parsed []
                                            selected := []
                                            stepOk := fun _ _ => true
                                            configOk := true
                                            freeDisk := 0
                                            freeMem := 0
                                            corpusSize := 0 }).2) ↔
      ((_build { resume := false
                 debug := false
                 enginePathExists := false
                 numBilingual := 1
                 checkpointFile := .parsed []
                 selected := []
                 stepOk := fun _ _ => true
                 configOk := true
                 freeDisk := 0
                 freeMem := 0
                 corpusSize := 0 }).1.isOk = true ∧ false = false)) ∧
    ((_build { resume := false
               debug := false
               enginePathExists := false
               numBilingual := 1
               checkpointFile := .parsed []
               selected := []
               stepOk := fun _ _ => true
               configOk := true
               freeDisk := 0
               freeMem := 0
               corpusSize := 0 }).1.isOk = false →
      TraceEv.logError ∈ (_build { resume := false
                                   debug := false
                                   enginePathExists := false
                                   numBilingual := 1
                                   checkpointFile := .parsed []
                                   selected := []
                                   stepOk := fun _ _ => true
                                   configOk := true
                                   freeDisk := 0
                                   freeMem := 0
                                   corpusSize := 0 }).2) ∧
    (_build { resume := false
              debug := false
              enginePathExists := false
              numBilingual := 1
              checkpointFile := .parsed []
              selected := []
              stepOk := fun _ _ => true
              configOk := true
              freeDisk := 0
              freeMem := 0
              corpusSize := 0 }).2.getLast? = some TraceEv.logClose :=
  build_tempdir_and_log_policy _ { passed_steps := [], file := [] } (by decide) rfl

/-- C10: the checkpoint record is a list, not a set: marking a step name
`s` already present in the record completed again appends a second copy
(`self._passed_steps.append(step)`), `save()` persists the duplicate to
the checkpoint file, while `to_be_run(s)` still returns false — completion
marking is not idempotent even though skip decisions are unaffected. -/
theorem completed_appends_duplicate (st : CheckpointState) (s : String)
    (h : st.passed_steps.contains s = true) :
    (CheckpointManager.completed st s).passed_steps = st.passed_steps ++ [s] ∧
    2 ≤ ((CheckpointManager.save (CheckpointManager.completed st s)).file.count s) ∧
    CheckpointManager.to_be_run (CheckpointManager.completed st s) s = false := by
  refine ⟨rfl, ?_, by simp [CheckpointManager.to_be_run, CheckpointManager.completed]⟩
  have hmem : s ∈ st.passed_steps := by simpa using h
  have h1 : 1 ≤ st.passed_steps.count s := List.count_pos_iff.mpr hmem
  show 2 ≤ (st.passed_steps ++ [s]).count s
  simp only [List.count_append, List.count_singleton, beq_self_eq_true, if_true]
  omega

/-- C10 witness. -/
theorem completed_appends_duplicate_witness :
    (CheckpointManager.completed { passed_steps := ["tm"], file := ["tm"] } "tm").passed_steps =
      ["tm"] ++ ["tm"] ∧
    2 ≤ ((CheckpointManager.save (CheckpointManager.completed
          { passed_steps := ["tm"], file := ["tm"] } "tm")).file.count "tm") ∧
    CheckpointManager.to_be_run (CheckpointManager.completed
          { passed_steps := ["tm"], file := ["tm"] } "tm") "tm" = false :=
  completed_appends_duplicate { passed_steps := ["tm"], file := ["tm"] } "tm" rfl

end MMT
